import Mathlib

/-!
Verification development for the SceneScape pipeline generator
(`manager/src/django/ppl_generator.py`).

The Python module is embedded shallowly:

* Python dicts whose insertion order matters (`model_params`, the model
  config mapping, the calibration entries of the camera settings) become
  ordered association lists `List (String × _)`; `alGet`, `alSet` and
  `alUpdate` model dict access, item assignment and `dict.update`.
* Python exceptions (`ValueError`) become `Except String _`; the embedded
  error messages follow the source messages with quote characters elided.
* Values that `float()` is applied to are modelled by `CalVal`: either a
  numeric value (carried as a `Rat`; the claims only need equality with
  zero, so float rounding is irrelevant) or a value `float()` rejects.
* `pathlib.Path` joining is modelled by `pathJoin` for the path shapes the
  generator produces (an absolute right operand replaces the root);
  pathlib segment normalisation (duplicate slashes, dot segments) is not
  modelled, as no claim depends on it.
-/

namespace PplGen

/-- Primitive values stored in a model parameter map: Python strings and
numbers as they arrive from the JSON model config. -/
inductive PValue where
  | str (s : String)
  | int (n : Int)
deriving DecidableEq, Repr

instance {ε α : Type} [DecidableEq ε] [DecidableEq α] : DecidableEq (Except ε α) := fun a b =>
  match a, b with
  | .error e1, .error e2 =>
    if h : e1 = e2 then .isTrue (h ▸ rfl) else .isFalse (fun hc => h (Except.error.inj hc))
  | .ok a1, .ok a2 =>
    if h : a1 = a2 then .isTrue (h ▸ rfl) else .isFalse (fun hc => h (Except.ok.inj hc))
  | .error _, .ok _ => .isFalse (fun hc => Except.noConfusion hc)
  | .ok _, .error _ => .isFalse (fun hc => Except.noConfusion hc)

/-- First-occurrence lookup in an ordered association list: Python
`d[k]` / `k in d` on a dict (which cannot hold duplicate keys). -/
def alGet {α : Type} : List (String × α) → String → Option α
  | [], _ => none
  | (k, v) :: rest, key => if k = key then some v else alGet rest key

/-- Python dict item assignment `d[k] = v`: replaces the value in place
when the key exists (a dict cannot hold duplicate keys, so replacing the
first occurrence is exact), otherwise appends the pair at the end. -/
def alSet {α : Type} : List (String × α) → String → α → List (String × α)
  | [], k, v => [(k, v)]
  | (k2, v2) :: rest, k, v =>
    if k2 = k then (k, v) :: rest else (k2, v2) :: alSet rest k v

/-- Python `base.update(upd)`: assign every pair of `upd`, in order,
into `base`. -/
def alUpdate {α : Type} (base upd : List (String × α)) : List (String × α) :=
  upd.foldl (fun d p => alSet d p.1 p.2) base

/-- Python `s.startswith(p)`, at the character level. -/
def strHasPrefix (p s : String) : Bool := p.data.isPrefixOf s.data

/-- Python slice `s[n:]` (the prefixes sliced off here are ASCII, so byte
and character counts agree). -/
def strDrop (s : String) (n : Nat) : String := String.mk (s.data.drop n)

/-- Python `c in s` for a single character `c`. -/
def strContainsChar (s : String) (c : Char) : Bool := s.data.contains c

/-- Python `s.strip()`: surrounding whitespace removed from both ends
(modelled over the ASCII whitespace characters of `Char.isWhitespace`). -/
def strStrip (s : String) : String :=
  String.mk (((s.data.dropWhile Char.isWhitespace).reverse.dropWhile Char.isWhitespace).reverse)

/-- Python `s.split(sep, 1)`: the characters before the first `sep`,
and when `sep` occurs the characters after it. -/
def splitFirst (sep : Char) : List Char → List Char × Option (List Char)
  | [] => ([], none)
  | c :: cs =>
    if c = sep then ([], some cs)
    else
      let r := splitFirst sep cs
      (c :: r.1, r.2)

/-- Character class `[A-Za-z0-9_-]` of the model-name regex. -/
def isNameChar (c : Char) : Bool := c.isAlpha || c.isDigit || c = '_' || c = '-'

/-- Python `re.match(r..., name)` viewed as a total match: the argument is
always a stripped string, so the trailing-newline latitude of `$` cannot
fire and the regex accepts exactly a letter followed by name characters. -/
def nameMatches (s : String) : Bool :=
  match s.data with
  | [] => false
  | c :: cs => c.isAlpha && cs.all isNameChar

/-- Python `Path(root) / Path(p)` rendered back to a string, for the path
shapes this generator builds (see module docstring). -/
def pathJoin (root p : String) : String :=
  if strHasPrefix "/" p then p else root ++ "/" ++ p

/-- One entry of the model config mapping: `type`, the nested
`input-format.color-space` value (with the empty string as the `get`
default), and the ordered `params` dict. -/
structure ModelConfigEntry where
  type : Option String
  colorSpace : String
  params : List (String × PValue)
deriving DecidableEq, Repr

/-- The dict returned by `InferenceModel._load_params`. -/
structure ResolvedParams where
  input_format : String
  model_type : Option String
  model_params : List (String × PValue)
deriving DecidableEq, Repr

/-- The state of a fully constructed `InferenceModel` object. -/
structure InferenceModel where
  model_name : String
  device : Option String
  params : ResolvedParams
  inference_element : String
deriving DecidableEq, Repr

namespace InferenceModel

/-- `InferenceModel.DEFAULT_PARAMS`. -/
def DEFAULT_PARAMS : List (String × PValue) :=
  [("scheduling-policy", .str "latency"), ("batch-size", .str "1"), ("inference-interval", .str "1")]

/-- `InferenceModel._parse_model_expr`: split on the first `=`, strip both
parts, reject an empty device and a name that fails the regex. -/
def parse_model_expr (model_expr : String) : Except String (String × Option String) :=
  let r := splitFirst '=' model_expr.data
  match r.2 with
  | some rcs =>
    let model_name := strStrip (String.mk r.1)
    let device := strStrip (String.mk rcs)
    if device = "" then
      .error ("Device name cannot be empty in model expression " ++ model_expr)
    else if nameMatches model_name then .ok (model_name, some device)
    else .error ("Invalid model name " ++ model_name ++ ". Model name must start with a letter and contain only letters, numbers, underscores, and hyphens.")
  | none =>
    let model_name := strStrip model_expr
    if nameMatches model_name then .ok (model_name, none)
    else .error ("Invalid model name " ++ model_name ++ ". Model name must start with a letter and contain only letters, numbers, underscores, and hyphens.")

/-- `InferenceModel._resolve_paths`: values of the keys `model` and
`model_proc` are joined under the models folder, all other pairs pass
through (the source only ever holds string values under those keys). -/
def resolve_paths (models_folder : String) (params : List (String × PValue)) : List (String × PValue) :=
  params.map (fun p =>
    if p.1 = "model" ∨ p.1 = "model_proc" then
      match p.2 with
      | .str s => (p.1, .str (pathJoin models_folder s))
      | v => (p.1, v)
    else p)

/-- `InferenceModel._set_default_params`: copy `DEFAULT_PARAMS`, then
`update` with the entry parameters. -/
def set_default_params (params : List (String × PValue)) : List (String × PValue) :=
  alUpdate DEFAULT_PARAMS params

/-- `InferenceModel._load_params`. -/
def load_params (models_folder : String) (model_config : List (String × ModelConfigEntry))
    (model_name : String) : Except String ResolvedParams :=
  if model_name = "" then
    .error "No model name provided for model expression"
  else
    match alGet model_config model_name with
    | some config =>
      let input_format := if config.colorSpace ≠ "" then "format=" ++ config.colorSpace else ""
      let model_params := set_default_params (resolve_paths models_folder config.params)
      .ok ⟨input_format, config.type, model_params⟩
    | none => .error ("Model " ++ model_name ++ " not found in model config file.")

/-- `InferenceModel._get_inference_element_name`. -/
def get_inference_element_name (model_type : Option String) : Except String String :=
  if model_type = some "detect" then .ok "gvadetect"
  else if model_type = some "classify" then .ok "gvaclassify"
  else .error "Unsupported model type. Supported types are detect, classify."

/-- `InferenceModel.__init__`: parse the expression, load the parameters,
apply `_set_target_device` (a truthy parsed device is written under key
`device`), and resolve the inference element name. -/
def make (models_folder model_expr : String) (model_config : List (String × ModelConfigEntry)) :
    Except String InferenceModel := do
  let nd ← parse_model_expr model_expr
  let p ← load_params models_folder model_config nd.1
  let p2 := match nd.2 with
    | some d =>
      if d ≠ "" then { p with model_params := alSet p.model_params "device" (.str d) } else p
    | none => p
  let elem ← get_inference_element_name p2.model_type
  .ok ⟨nd.1, nd.2, p2, elem⟩

/-- `InferenceModel.get_target_device`: `self.device or CPU` (a falsy
device, absent or empty, yields CPU). -/
def get_target_device (m : InferenceModel) : String :=
  match m.device with
  | some d => if d = "" then "CPU" else d
  | none => "CPU"

/-- `InferenceModel.set_preprocessing_backend`: a truthy backend is
written under key `pre-process-backend`. -/
def set_preprocessing_backend (m : InferenceModel) (b : String) : InferenceModel :=
  if b ≠ "" then
    { m with params :=
        { m.params with model_params := alSet m.params.model_params "pre-process-backend" (.str b) } }
  else m

/-- `InferenceModel._format_value`: a string containing one of the
characters of the Python literal " ;!", or equal to the empty string, is
surrounded by double quotes; everything else renders as `str(value)`. -/
def format_value : PValue → String
  | .str s => if (" ;!".data.any fun c => strContainsChar s c) || s = "" then "\"" ++ s ++ "\"" else s
  | .int n => toString n

/-- `InferenceModel.serialize`: the single inference stage descriptor. -/
def serialize (m : InferenceModel) : List String :=
  [m.inference_element ++ " " ++
    String.intercalate " " (m.params.model_params.map (fun p => p.1 ++ "=" ++ format_value p.2))]

end InferenceModel

/-- A value the camera-settings calibration fields can hold, seen through
`float()`: either a numeric value (its exact value as a rational) or a
value on which `float()` raises. -/
inductive CalVal where
  | num (q : Rat)
  | nonnum
deriving DecidableEq, Repr

/-- Python `float(v)`: the numeric value when it parses, failure
otherwise. -/
def parseFloat : CalVal → Option Rat
  | .num q => some q
  | .nonnum => none

/-- The camera-settings dict, restricted to the entries the generator
reads: the model expression under `camerachain`, the source URI under
`command`, the optional decode-device hint `cv_subsystem`, the truthiness
of the `undistort` entry, and the calibration entries. -/
structure CameraSettings where
  camerachain : String
  command : String
  cv_subsystem : Option String
  undistort : Bool
  calib : List (String × CalVal)
deriving DecidableEq, Repr

/-- The decision produced by `PipelineGenerator._apply_device_rule_set`. -/
structure DeviceDecision where
  decode : List String
  memory_uses_va_surfaces : Bool
  memory_caps : List String
  preprocessing_backend : String
  post_gpu_inference_conversion : Bool
deriving DecidableEq, Repr

/-- The state of a fully constructed `PipelineGenerator` object. -/
structure PipelineGenerator where
  inference_model : InferenceModel
  input : List String
  decode : List String
  memory_uses_va_surfaces : Bool
  memory_caps : List String
  preprocessing_backend : String
  post_gpu_inference_conversion : Bool
  timestamp : List String
  undistort : List String
  adapter : List String
  metadata_conversion : List String
  sink : List String
deriving DecidableEq, Repr

namespace PipelineGenerator

/-- Class attribute `PipelineGenerator.models_folder`. -/
def models_folder : String := "/home/pipeline-server/models"

/-- Class attribute `PipelineGenerator.gva_python_path`. -/
def gva_python_path : String := "/home/pipeline-server/user_scripts/gvapython/sscape"

/-- Class attribute `PipelineGenerator.video_path`. -/
def video_path : String := "/home/pipeline-server/videos"

/-- `PipelineGenerator._apply_device_rule_set`, as a function of the
decode device (already defaulted) and the inference target device. -/
def apply_device_rule_set (decode_device inference_device : String) :
    Except String DeviceDecision :=
  if decode_device = "CPU" ∨ decode_device = "GPU" ∨ decode_device = "AUTO" then
    let decode :=
      if decode_device = "CPU" then ["decodebin force-sw-decoders=true", "videoconvert"]
      else if decode_device = "GPU" then ["decodebin3", "vapostproc"]
      else ["decodebin3"]
    let surf := decode_device != "CPU" && inference_device == "GPU"
    .ok { decode := decode,
          memory_uses_va_surfaces := surf,
          memory_caps := if surf then ["video/x-raw(memory:VAMemory)"] else ["video/x-raw"],
          preprocessing_backend :=
            if surf then "va-surface-sharing"
            else if inference_device == "GPU" then "opencv" else "",
          post_gpu_inference_conversion := inference_device == "GPU" }
  else
    .error ("Unsupported decode device: " ++ decode_device ++ ". Supported values are CPU, GPU, AUTO.")

/-- `PipelineGenerator._parse_source`. -/
def parse_source (source : String) (video_volume_path : String) : Except String (List String) :=
  if strHasPrefix "rtsp://" source then
    .ok ["rtspsrc location=" ++ source ++ " latency=200 name=source",
         "rtph264depay",
         "h264parse"]
  else if strHasPrefix "file://" source then
    .ok ["multifilesrc loop=TRUE location=" ++
          pathJoin video_volume_path (strDrop source "file://".length) ++ " name=source"]
  else if strHasPrefix "http://" source || strHasPrefix "https://" source then
    .ok ["curlhttpsrc location=" ++ source ++ " name=source",
         "multipartdemux"]
  else
    .error ("Unsupported source type in " ++ source ++
      ". Supported types are rtsp://... (raw H.264), http(s)://... (MJPEG) and file://... (relative to video folder).")

/-- The intrinsics key list of `PipelineGenerator.add_camera_undistort`. -/
def intrinsics_keys : List String :=
  ["intrinsics_fx", "intrinsics_fy", "intrinsics_cx", "intrinsics_cy"]

/-- The distortion-coefficient key list of
`PipelineGenerator.add_camera_undistort`. -/
def dist_coeffs_keys : List String :=
  ["distortion_k1", "distortion_k2", "distortion_p1", "distortion_p2", "distortion_k3"]

/-- The comprehension applying `float()` to the value of every listed
key, under the try/except of `add_camera_undistort`: the whole list when
every value parses, the exception branch otherwise. -/
def floatValues (camera_settings : List (String × CalVal)) : List String → Option (List Rat)
  | [] => some []
  | k :: ks =>
    match (alGet camera_settings k).bind parseFloat with
    | none => none
    | some q =>
      match floatValues camera_settings ks with
      | none => none
      | some qs => some (q :: qs)

/-- `PipelineGenerator.add_camera_undistort`: membership checks for the
nine keys, `float()` applied (inside try/except) to the five distortion
values only, the all-zero test, and the single stage. -/
def add_camera_undistort (camera_settings : List (String × CalVal)) : List String :=
  if intrinsics_keys.all (fun k => (alGet camera_settings k).isSome) then
    if dist_coeffs_keys.all (fun k => (alGet camera_settings k).isSome) then
      match floatValues camera_settings dist_coeffs_keys with
      | none => []
      | some dist_coeffs =>
        if dist_coeffs.all (fun c => decide (c = 0)) then []
        else ["cameraundistort settings=cameraundistort0"]
    else []
  else []

/-- The `self.timestamp` stage of `PipelineGenerator.__init__`. -/
def timestamp_stage : String :=
  "gvapython class=PostDecodeTimestampCapture function=processFrame module=" ++
    gva_python_path ++ "/sscape_adapter.py name=timesync"

/-- The `self.adapter` stages of `PipelineGenerator.__init__`. -/
def adapter_stages : List String :=
  ["videoconvert",
   "video/x-raw,format=BGR",
   "gvapython class=PostInferenceDataPublish function=processFrame module=" ++
     gva_python_path ++ "/sscape_adapter.py name=datapublisher"]

/-- The `self.metadata_conversion` stages of `PipelineGenerator.__init__`. -/
def metadata_conversion_stages : List String :=
  ["gvametaconvert add-tensor-data=true name=metaconvert"]

/-- The `self.sink` stages of `PipelineGenerator.__init__`. -/
def sink_stages : List String := ["appsink sync=true"]

/-- `PipelineGenerator.__init__`: construct the inference model, parse
the source, apply the device rule set, and populate the fixed stages; the
undistortion stages are computed only when the `undistort` entry is
truthy. -/
def make (camera_settings : CameraSettings) (model_config : List (String × ModelConfigEntry)) :
    Except String PipelineGenerator := do
  let im ← InferenceModel.make models_folder camera_settings.camerachain model_config
  let input ← parse_source camera_settings.command video_path
  let dd ← apply_device_rule_set (camera_settings.cv_subsystem.getD "AUTO")
    (InferenceModel.get_target_device im)
  .ok { inference_model := im,
        input := input,
        decode := dd.decode,
        memory_uses_va_surfaces := dd.memory_uses_va_surfaces,
        memory_caps := dd.memory_caps,
        preprocessing_backend := dd.preprocessing_backend,
        post_gpu_inference_conversion := dd.post_gpu_inference_conversion,
        timestamp := [timestamp_stage],
        undistort := if camera_settings.undistort then add_camera_undistort camera_settings.calib else [],
        adapter := adapter_stages,
        metadata_conversion := metadata_conversion_stages,
        sink := sink_stages }

/-- The ordered component list built by `PipelineGenerator.generate`
before joining: the preprocessing backend, when truthy, is applied to the
inference model right before serialization. -/
def components (g : PipelineGenerator) : List String :=
  let im :=
    if g.preprocessing_backend ≠ "" then
      InferenceModel.set_preprocessing_backend g.inference_model g.preprocessing_backend
    else g.inference_model
  g.input ++ g.decode ++ g.memory_caps ++ g.undistort ++ g.timestamp ++
    InferenceModel.serialize im ++ ["queue"] ++ g.metadata_conversion ++
    (if g.post_gpu_inference_conversion then ["vapostproc", "video/x-raw,format=BGRA"] else []) ++
    g.adapter ++ g.sink

/-- `PipelineGenerator.generate`: join the components with the fixed
chain-link separator. -/
def generate (g : PipelineGenerator) : String :=
  String.intercalate " ! " (components g)

end PipelineGenerator

/-- C2 counterexample: at decode device GPU and inference device GPU the
rule set selects surface sharing, but the preprocessing backend it chooses
is the string va-surface-sharing, not surface-sharing as the claim
states. -/
theorem c2_backend_counterexample :
    PipelineGenerator.apply_device_rule_set "GPU" "GPU" =
      Except.ok ⟨["decodebin3", "vapostproc"], true, ["video/x-raw(memory:VAMemory)"],
        "va-surface-sharing", true⟩ ∧
    ("va-surface-sharing" : String) ≠ "surface-sharing" :=
  ⟨rfl, by decide⟩

/-- C2 (amended): whenever the device rule set succeeds, surface sharing
holds exactly when the decode device is not CPU and the inference device
is GPU; under surface sharing the memory capability is the device-surface
marker and the backend is va-surface-sharing; otherwise the capability is
the raw-frame marker and the backend is opencv for a GPU inference device
and empty otherwise; post-inference conversion holds exactly for a GPU
inference device. -/
theorem c2_surface_sharing (dd inf : String) (d : DeviceDecision)
    (h : PipelineGenerator.apply_device_rule_set dd inf = Except.ok d) :
    (d.memory_uses_va_surfaces = true ↔ (dd ≠ "CPU" ∧ inf = "GPU")) ∧
    ((dd ≠ "CPU" ∧ inf = "GPU") →
      d.memory_caps = ["video/x-raw(memory:VAMemory)"] ∧
      d.preprocessing_backend = "va-surface-sharing") ∧
    (¬ (dd ≠ "CPU" ∧ inf = "GPU") →
      d.memory_caps = ["video/x-raw"] ∧
      d.preprocessing_backend = (if inf = "GPU" then "opencv" else "")) ∧
    (d.post_gpu_inference_conversion = true ↔ inf = "GPU") := by
  unfold PipelineGenerator.apply_device_rule_set at h
  split at h
  · simp only [Except.ok.injEq] at h
    subst h
    by_cases hc : dd = "CPU" <;> by_cases hg : inf = "GPU" <;>
      simp [hc, hg]
  · exact Except.noConfusion h

/-- C2 witness: the amended statement evaluated at decode GPU, inference
GPU. -/
theorem c2_surface_sharing_witness :
    PipelineGenerator.apply_device_rule_set "GPU" "GPU" =
      Except.ok ⟨["decodebin3", "vapostproc"], true, ["video/x-raw(memory:VAMemory)"],
        "va-surface-sharing", true⟩ ∧
    ((⟨["decodebin3", "vapostproc"], true, ["video/x-raw(memory:VAMemory)"],
        "va-surface-sharing", true⟩ : DeviceDecision).memory_uses_va_surfaces = true ↔
      (("GPU" : String) ≠ "CPU" ∧ ("GPU" : String) = "GPU")) :=
  ⟨rfl, (c2_surface_sharing "GPU" "GPU" _ rfl).1⟩

/-- C8: the device rule resolver fails exactly when the (defaulted) decode
device is outside CPU, GPU, AUTO; an unset hint defaults to AUTO; and the
decode stage table is CPU to software-forced decode plus color-convert,
GPU to hardware decode plus platform post-process, AUTO to auto-negotiated
hardware decode, for every inference device string. -/
theorem c8_decode_device_table (cv : Option String) (inf : String) :
    ((∃ e, PipelineGenerator.apply_device_rule_set (cv.getD "AUTO") inf = Except.error e) ↔
      ¬ (cv.getD "AUTO" = "CPU" ∨ cv.getD "AUTO" = "GPU" ∨ cv.getD "AUTO" = "AUTO")) ∧
    (cv = none →
      ∃ d, PipelineGenerator.apply_device_rule_set (cv.getD "AUTO") inf = Except.ok d ∧
        d.decode = ["decodebin3"]) ∧
    (∃ d, PipelineGenerator.apply_device_rule_set "CPU" inf = Except.ok d ∧
      d.decode = ["decodebin force-sw-decoders=true", "videoconvert"]) ∧
    (∃ d, PipelineGenerator.apply_device_rule_set "GPU" inf = Except.ok d ∧
      d.decode = ["decodebin3", "vapostproc"]) ∧
    (∃ d, PipelineGenerator.apply_device_rule_set "AUTO" inf = Except.ok d ∧
      d.decode = ["decodebin3"]) := by
  refine ⟨?_, ?_, ⟨_, rfl, rfl⟩, ⟨_, rfl, rfl⟩, ⟨_, rfl, rfl⟩⟩
  · by_cases hv : cv.getD "AUTO" = "CPU" ∨ cv.getD "AUTO" = "GPU" ∨ cv.getD "AUTO" = "AUTO" <;>
      simp [PipelineGenerator.apply_device_rule_set, hv]
  · intro hcv
    subst hcv
    exact ⟨_, rfl, rfl⟩

/-- C8 witness: the statement evaluated at an unset decode hint and a
non-GPU inference device. -/
theorem c8_decode_device_table_witness :
    (Option.none : Option String) = none ∧
    (∃ d, PipelineGenerator.apply_device_rule_set ((Option.none : Option String).getD "AUTO") "CPU" =
      Except.ok d ∧ d.decode = ["decodebin3"]) :=
  ⟨rfl, (c8_decode_device_table none "CPU").2.1 rfl⟩

/-- Lookup after a single dict assignment: the assigned key reads back the
new value and every other key is untouched. -/
theorem alGet_alSet {α : Type} (d : List (String × α)) (k key : String) (v : α) :
    alGet (alSet d k v) key = if k = key then some v else alGet d key := by
  induction d with
  | nil =>
    by_cases h : k = key <;> simp [alSet, alGet, h]
  | cons p rest ih =>
    obtain ⟨k2, v2⟩ := p
    by_cases h2 : k2 = k
    · subst h2
      by_cases h : k2 = key <;> simp [alSet, alGet, h]
    · by_cases h : k2 = key
      · subst h
        have hk : ¬ k = k2 := fun he => h2 he.symm
        simp [alSet, alGet, h2, hk]
      · simp [alSet, alGet, h2, h, ih]

/-- A key absent from the key sequence reads back nothing. -/
theorem alGet_eq_none_of_not_mem {α : Type} (d : List (String × α)) (key : String)
    (h : key ∉ d.map Prod.fst) : alGet d key = none := by
  induction d with
  | nil => rfl
  | cons p rest ih =>
    obtain ⟨k, v⟩ := p
    simp only [List.map_cons, List.mem_cons, not_or] at h
    simp only [alGet, if_neg (fun he : k = key => h.1 he.symm)]
    exact ih h.2

/-- Keys after a single dict assignment: an existing key keeps the key
sequence, a new key is appended at the end. -/
theorem keys_alSet {α : Type} (d : List (String × α)) (k : String) (v : α) :
    (alSet d k v).map Prod.fst =
      if k ∈ d.map Prod.fst then d.map Prod.fst else d.map Prod.fst ++ [k] := by
  induction d with
  | nil => simp [alSet]
  | cons p rest ih =>
    obtain ⟨k2, v2⟩ := p
    by_cases h2 : k2 = k
    · subst h2
      simp [alSet]
    · simp only [alSet, if_neg h2, List.map_cons, ih, List.mem_cons,
        (show ¬ k = k2 from fun he => h2 he.symm), false_or, List.cons_append]
      split <;> rfl

/-- Lookup after `dict.update` on duplicate-free update entries: the
update value wins on every key collision, the base value survives
otherwise. -/
theorem alGet_alUpdate {α : Type} (base upd : List (String × α)) (key : String)
    (h : (upd.map Prod.fst).Nodup) :
    alGet (alUpdate base upd) key =
      match alGet upd key with
      | some v => some v
      | none => alGet base key := by
  induction upd generalizing base with
  | nil => simp [alUpdate, alGet]
  | cons p rest ih =>
    obtain ⟨k, v⟩ := p
    simp only [List.map_cons, List.nodup_cons] at h
    have hstep : alUpdate base ((k, v) :: rest) = alUpdate (alSet base k v) rest := rfl
    rw [hstep, ih _ h.2]
    by_cases hk : k = key
    · subst hk
      have hrest : alGet rest k = none := alGet_eq_none_of_not_mem rest k h.1
      simp [hrest, alGet, alGet_alSet]
    · simp [alGet, fun he : k = key => hk he, alGet_alSet, hk]

/-- Keys after `dict.update` on duplicate-free update entries: base keys
first, in base order, then the update keys absent from the base, in
update order. -/
theorem keys_alUpdate {α : Type} (base upd : List (String × α))
    (h : (upd.map Prod.fst).Nodup) :
    (alUpdate base upd).map Prod.fst =
      base.map Prod.fst ++
        (upd.map Prod.fst).filter (fun k => decide (k ∉ base.map Prod.fst)) := by
  induction upd generalizing base with
  | nil => simp [alUpdate]
  | cons p rest ih =>
    obtain ⟨k, v⟩ := p
    simp only [List.map_cons, List.nodup_cons] at h
    have hstep : alUpdate base ((k, v) :: rest) = alUpdate (alSet base k v) rest := rfl
    rw [hstep, ih _ h.2, keys_alSet]
    by_cases hc : k ∈ base.map Prod.fst
    · simp only [if_pos hc]
      simp [hc, List.filter_cons]
    · have hfilter :
          (rest.map Prod.fst).filter (fun x => decide (x ∉ (base.map Prod.fst ++ [k]))) =
          (rest.map Prod.fst).filter (fun x => decide (x ∉ base.map Prod.fst)) := by
        apply List.filter_congr
        intro x hx
        have hxk : ¬ x = k := fun he => h.1 (he ▸ hx)
        simp [List.mem_append, hxk]
      simp only [if_neg hc, List.map_append, hfilter, List.filter_cons]
      simp [hc, List.append_assoc]

/-- C4: default parameter resolution takes the fixed default set as the
base and overlays the (duplicate-free) entry parameters, entry values
winning on every key collision; an entry with no explicit parameters
yields exactly the default set; and insertion order is preserved, default
keys first and then the remaining entry keys in entry order. -/
theorem c4_default_params_merge (params : List (String × PValue))
    (h : (params.map Prod.fst).Nodup) :
    InferenceModel.set_default_params [] = InferenceModel.DEFAULT_PARAMS ∧
    (∀ key v, alGet params key = some v →
      alGet (InferenceModel.set_default_params params) key = some v) ∧
    (∀ key, alGet params key = none →
      alGet (InferenceModel.set_default_params params) key =
        alGet InferenceModel.DEFAULT_PARAMS key) ∧
    (InferenceModel.set_default_params params).map Prod.fst =
      ["scheduling-policy", "batch-size", "inference-interval"] ++
        (params.map Prod.fst).filter
          (fun k => decide (k ∉ ["scheduling-policy", "batch-size", "inference-interval"])) := by
  refine ⟨rfl, ?_, ?_, ?_⟩
  · intro key v hv
    have hup := alGet_alUpdate InferenceModel.DEFAULT_PARAMS params key h
    rw [hv] at hup
    exact hup
  · intro key hv
    have hup := alGet_alUpdate InferenceModel.DEFAULT_PARAMS params key h
    rw [hv] at hup
    exact hup
  · have hkeys := keys_alUpdate InferenceModel.DEFAULT_PARAMS params h
    simpa [InferenceModel.set_default_params, InferenceModel.DEFAULT_PARAMS] using hkeys

/-- C4 witness: the merge evaluated on an entry overriding batch-size and
adding a threshold key. -/
theorem c4_default_params_merge_witness :
    ([("batch-size", PValue.str "8"), ("threshold", PValue.str "0.5")].map
      (Prod.fst (α := String) (β := PValue))).Nodup ∧
    alGet (InferenceModel.set_default_params
      [("batch-size", PValue.str "8"), ("threshold", PValue.str "0.5")]) "batch-size" =
      some (PValue.str "8") ∧
    alGet (InferenceModel.set_default_params
      [("batch-size", PValue.str "8"), ("threshold", PValue.str "0.5")]) "scheduling-policy" =
      some (PValue.str "latency") ∧
    (InferenceModel.set_default_params
      [("batch-size", PValue.str "8"), ("threshold", PValue.str "0.5")]).map Prod.fst =
      ["scheduling-policy", "batch-size", "inference-interval", "threshold"] := by
  have h := c4_default_params_merge
    [("batch-size", PValue.str "8"), ("threshold", PValue.str "0.5")] (by decide)
  exact ⟨by decide, h.2.1 "batch-size" (PValue.str "8") (by decide),
    (h.2.2.1 "scheduling-policy" (by decide)).trans (by decide), h.2.2.2.trans (by decide)⟩

/-- C9: serialization renders the parameters in order as key=value tokens
after the element name; a string value is quoted exactly when it contains
a space, a semicolon or an exclamation mark or is empty, and every other
value renders in its natural textual form; in particular the string a b
is quoted and the number 1 is not. -/
theorem c9_serialize_formatting (m : InferenceModel) :
    InferenceModel.serialize m =
      [m.inference_element ++ " " ++ String.intercalate " "
        (m.params.model_params.map
          (fun p => p.1 ++ "=" ++ InferenceModel.format_value p.2))] ∧
    (∀ s : String, InferenceModel.format_value (.str s) =
      (if ' ' ∈ s.data ∨ ';' ∈ s.data ∨ '!' ∈ s.data ∨ s = "" then
        "\"" ++ s ++ "\"" else s)) ∧
    (∀ n : Int, InferenceModel.format_value (.int n) = toString n) ∧
    InferenceModel.format_value (.str "a b") = "\"a b\"" ∧
    InferenceModel.format_value (.int 1) = "1" := by
  refine ⟨rfl, ?_, fun n => rfl, by decide, rfl⟩
  intro s
  show (if (" ;!".data.any fun c => strContainsChar s c) || s = "" then "\"" ++ s ++ "\"" else s) = _
  have hchars : " ;!".data = [' ', ';', '!'] := rfl
  rw [hchars]
  by_cases h1 : ' ' ∈ s.data <;> by_cases h2 : ';' ∈ s.data <;> by_cases h3 : '!' ∈ s.data <;>
    by_cases h4 : s = "" <;>
    simp [strContainsChar, List.any_cons, h1, h2, h3, h4]

/-- The split carries a right part exactly when the separator occurs. -/
theorem splitFirst_some_iff (sep : Char) (cs : List Char) :
    ((splitFirst sep cs).2).isSome = true ↔ sep ∈ cs := by
  induction cs with
  | nil => simp [splitFirst]
  | cons c cs ih =>
    by_cases h : c = sep
    · simp [splitFirst, h]
    · simp [splitFirst, h, ih, (show ¬ sep = c from fun he => h he.symm)]

/-- When the separator is absent, the left part of the split is the whole
input. -/
theorem splitFirst_none_fst (sep : Char) (cs : List Char)
    (h : (splitFirst sep cs).2 = none) : (splitFirst sep cs).1 = cs := by
  induction cs with
  | nil => rfl
  | cons c cs ih =>
    by_cases hc : c = sep
    · simp [splitFirst, hc] at h
    · simp only [splitFirst, if_neg hc] at h ⊢
      rw [ih h]

/-- C5: expression parsing splits on the first equals sign only, strips
both parts, fails exactly when a device segment is present but strips to
empty or the stripped name fails the name pattern, and on success returns
the stripped name with the stripped device (no device when no equals sign
is present). -/
theorem c5_parse_model_expr (model_expr : String) :
    (((splitFirst '=' model_expr.data).2).isSome = true ↔ '=' ∈ model_expr.data) ∧
    ((∃ e, InferenceModel.parse_model_expr model_expr = Except.error e) ↔
      ((∃ rest, (splitFirst '=' model_expr.data).2 = some rest ∧ strStrip (String.mk rest) = "") ∨
        nameMatches (strStrip (String.mk (splitFirst '=' model_expr.data).1)) = false)) ∧
    (∀ rest, (splitFirst '=' model_expr.data).2 = some rest →
      strStrip (String.mk rest) ≠ "" →
      nameMatches (strStrip (String.mk (splitFirst '=' model_expr.data).1)) = true →
      InferenceModel.parse_model_expr model_expr =
        Except.ok (strStrip (String.mk (splitFirst '=' model_expr.data).1),
          some (strStrip (String.mk rest)))) ∧
    ((splitFirst '=' model_expr.data).2 = none →
      String.mk (splitFirst '=' model_expr.data).1 = model_expr ∧
      (nameMatches (strStrip model_expr) = true →
        InferenceModel.parse_model_expr model_expr = Except.ok (strStrip model_expr, none))) := by
  refine ⟨splitFirst_some_iff '=' model_expr.data, ?_, ?_, ?_⟩
  · cases hr : (splitFirst '=' model_expr.data).2 with
    | none =>
      have hfst : String.mk (splitFirst '=' model_expr.data).1 = model_expr := by
        rw [splitFirst_none_fst '=' model_expr.data hr]
      by_cases hn : nameMatches (strStrip model_expr) = true <;>
        simp [InferenceModel.parse_model_expr, hr, hfst, hn]
    | some rest =>
      by_cases hd : strStrip (String.mk rest) = ""
      · simp [InferenceModel.parse_model_expr, hr, hd]
      · by_cases hn : nameMatches (strStrip (String.mk (splitFirst '=' model_expr.data).1)) = true <;>
          simp [InferenceModel.parse_model_expr, hr, hd, hn]
  · intro rest hrest hd hn
    simp [InferenceModel.parse_model_expr, hrest, hd, hn]
  · intro hr
    have hfst : String.mk (splitFirst '=' model_expr.data).1 = model_expr := by
      rw [splitFirst_none_fst '=' model_expr.data hr]
    refine ⟨hfst, fun hn => ?_⟩
    simp [InferenceModel.parse_model_expr, hr, hn]

/-- C5 witness: the statement evaluated on the expression det=GPU. -/
theorem c5_parse_model_expr_witness :
    (splitFirst '=' ("det=GPU").data).2 = some ("GPU".data) ∧
    strStrip (String.mk ("GPU".data)) ≠ "" ∧
    nameMatches (strStrip (String.mk (splitFirst '=' ("det=GPU").data).1)) = true ∧
    InferenceModel.parse_model_expr "det=GPU" =
      Except.ok (strStrip (String.mk (splitFirst '=' ("det=GPU").data).1),
        some (strStrip (String.mk ("GPU".data)))) := by
  have h := (c5_parse_model_expr "det=GPU").2.2.1 ("GPU".data) (by decide) (by decide) (by decide)
  exact ⟨by decide, by decide, by decide, h⟩

/-- C7: configuration resolution fails exactly when the model name is
empty or absent from the mapping; a nonempty name that is a key of the
mapping resolves without failure. -/
theorem c7_load_params (models_folder : String) (cfg : List (String × ModelConfigEntry))
    (name : String) :
    ((∃ e, InferenceModel.load_params models_folder cfg name = Except.error e) ↔
      (name = "" ∨ alGet cfg name = none)) ∧
    (∀ entry, alGet cfg name = some entry → name ≠ "" →
      ∃ p, InferenceModel.load_params models_folder cfg name = Except.ok p) := by
  by_cases hn : name = ""
  · simp [InferenceModel.load_params, hn]
  · cases hc : alGet cfg name with
    | none => simp [InferenceModel.load_params, hn, hc]
    | some entry => simp [InferenceModel.load_params, hn, hc]

/-- C7 witness: resolving a present model name succeeds, evaluated on a
one-entry mapping. -/
theorem c7_load_params_witness :
    alGet [("det", (⟨some "detect", "", []⟩ : ModelConfigEntry))] "det" =
      some (⟨some "detect", "", []⟩ : ModelConfigEntry) ∧
    ("det" : String) ≠ "" ∧
    (∃ p, InferenceModel.load_params "/models"
      [("det", (⟨some "detect", "", []⟩ : ModelConfigEntry))] "det" = Except.ok p) := by
  refine ⟨by decide, by decide, ?_⟩
  exact (c7_load_params "/models" [("det", ⟨some "detect", "", []⟩)] "det").2
    ⟨some "detect", "", []⟩ (by decide) (by decide)

/-- Prefix tests against an appended string reduce to the character
level. -/
theorem strHasPrefix_append (p q rest : String) :
    strHasPrefix p (q ++ rest) = p.data.isPrefixOf (q.data ++ rest.data) := by
  rw [strHasPrefix, String.data_append]

/-- A string always starts with the prefix it was built from. -/
theorem strHasPrefix_self_append (p rest : String) :
    strHasPrefix p (p ++ rest) = true := by
  rw [strHasPrefix_append]
  exact List.isPrefixOf_iff_prefix.mpr (List.prefix_append _ _)

/-- C6: an rtsp URI yields the network RTSP source (with the URI as
location and latency 200), depacketizer and H.264 parser; a file URI
yields the single looped multi-file source located at the video root
joined with the remainder after the scheme prefix; an http or https URI
yields the HTTP pull source plus multipart demultiplexer; and any other
string fails with an error naming the three supported scheme families. -/
theorem c6_parse_source (uri rest root : String) :
    (uri = "rtsp://" ++ rest →
      PipelineGenerator.parse_source uri root =
        Except.ok ["rtspsrc location=" ++ uri ++ " latency=200 name=source",
          "rtph264depay", "h264parse"]) ∧
    (uri = "file://" ++ rest →
      PipelineGenerator.parse_source uri root =
        Except.ok ["multifilesrc loop=TRUE location=" ++ pathJoin root rest ++ " name=source"]) ∧
    ((uri = "http://" ++ rest ∨ uri = "https://" ++ rest) →
      PipelineGenerator.parse_source uri root =
        Except.ok ["curlhttpsrc location=" ++ uri ++ " name=source", "multipartdemux"]) ∧
    (strHasPrefix "rtsp://" uri = false → strHasPrefix "file://" uri = false →
      strHasPrefix "http://" uri = false → strHasPrefix "https://" uri = false →
      PipelineGenerator.parse_source uri root =
        Except.error ("Unsupported source type in " ++ uri ++
          ". Supported types are rtsp://... (raw H.264), http(s)://... (MJPEG) and file://... (relative to video folder).")) := by
  refine ⟨?_, ?_, ?_, ?_⟩
  · intro h
    subst h
    have h1 : strHasPrefix "rtsp://" ("rtsp://" ++ rest) = true :=
      strHasPrefix_self_append "rtsp://" rest
    simp [PipelineGenerator.parse_source, h1]
  · intro h
    subst h
    have h1 : strHasPrefix "rtsp://" ("file://" ++ rest) = false :=
      (strHasPrefix_append "rtsp://" "file://" rest).trans rfl
    have h2 : strHasPrefix "file://" ("file://" ++ rest) = true :=
      strHasPrefix_self_append "file://" rest
    have h3 : strDrop ("file://" ++ rest) ("file://".length) = rest := by
      show String.mk ((("file://" ++ rest) : String).data.drop "file://".length) = rest
      rw [String.data_append]
      rfl
    simp [PipelineGenerator.parse_source, h1, h2, h3]
  · intro h
    rcases h with h | h <;> subst h
    · have h1 : strHasPrefix "rtsp://" ("http://" ++ rest) = false :=
        (strHasPrefix_append "rtsp://" "http://" rest).trans rfl
      have h2 : strHasPrefix "file://" ("http://" ++ rest) = false :=
        (strHasPrefix_append "file://" "http://" rest).trans rfl
      have h3 : strHasPrefix "http://" ("http://" ++ rest) = true :=
        strHasPrefix_self_append "http://" rest
      simp [PipelineGenerator.parse_source, h1, h2, h3]
    · have h1 : strHasPrefix "rtsp://" ("https://" ++ rest) = false :=
        (strHasPrefix_append "rtsp://" "https://" rest).trans rfl
      have h2 : strHasPrefix "file://" ("https://" ++ rest) = false :=
        (strHasPrefix_append "file://" "https://" rest).trans rfl
      have h3 : strHasPrefix "http://" ("https://" ++ rest) = false :=
        (strHasPrefix_append "http://" "https://" rest).trans rfl
      have h4 : strHasPrefix "https://" ("https://" ++ rest) = true :=
        strHasPrefix_self_append "https://" rest
      simp [PipelineGenerator.parse_source, h1, h2, h3, h4]
  · intro h1 h2 h3 h4
    simp [PipelineGenerator.parse_source, h1, h2, h3, h4]

/-- C6 witness: the file branch evaluated on file://cam1.mp4 against the
fixed video root. -/
theorem c6_parse_source_witness :
    ("file://cam1.mp4" : String) = "file://" ++ "cam1.mp4" ∧
    PipelineGenerator.parse_source "file://cam1.mp4" PipelineGenerator.video_path =
      Except.ok ["multifilesrc loop=TRUE location=" ++
        pathJoin PipelineGenerator.video_path "cam1.mp4" ++ " name=source"] :=
  ⟨rfl, (c6_parse_source "file://cam1.mp4" "cam1.mp4" PipelineGenerator.video_path).2.1 rfl⟩

/-- The comprehension fails exactly when some listed value fails to
parse. -/
theorem PipelineGenerator.floatValues_none_iff (cs : List (String × CalVal))
    (keys : List String) :
    PipelineGenerator.floatValues cs keys = none ↔
      ∃ k ∈ keys, (alGet cs k).bind parseFloat = none := by
  induction keys with
  | nil => simp [PipelineGenerator.floatValues]
  | cons k ks ih =>
    cases hf : (alGet cs k).bind parseFloat with
    | none =>
      simp only [PipelineGenerator.floatValues, hf]
      exact iff_of_true trivial ⟨k, List.mem_cons_self k ks, hf⟩
    | some q =>
      cases hv : PipelineGenerator.floatValues cs ks with
      | none =>
        simp only [PipelineGenerator.floatValues, hf, hv]
        rcases ih.mp hv with ⟨k2, hk2, hf2⟩
        exact iff_of_true trivial ⟨k2, List.mem_cons_of_mem k hk2, hf2⟩
      | some qs =>
        simp only [PipelineGenerator.floatValues, hf, hv]
        constructor
        · intro habs
          exact Option.noConfusion habs
        · rintro ⟨k2, hk2, hf2⟩
          rcases List.mem_cons.mp hk2 with he | hm
          · subst he
            rw [hf] at hf2
            exact Option.noConfusion hf2
          · have hcon := ih.mpr ⟨k2, hm, hf2⟩
            rw [hv] at hcon
            exact Option.noConfusion hcon

/-- When the comprehension succeeds, the parsed values are all zero
exactly when every listed value parses to zero. -/
theorem PipelineGenerator.floatValues_all_zero_iff (cs : List (String × CalVal))
    (keys : List String) (qs : List Rat)
    (h : PipelineGenerator.floatValues cs keys = some qs) :
    (qs.all fun c => decide (c = 0)) = true ↔
      ∀ k ∈ keys, (alGet cs k).bind parseFloat = some 0 := by
  induction keys generalizing qs with
  | nil =>
    simp only [PipelineGenerator.floatValues, Option.some.injEq] at h
    subst h
    simp
  | cons k ks ih =>
    revert h
    simp only [PipelineGenerator.floatValues]
    cases hf : (alGet cs k).bind parseFloat with
    | none => intro h; exact Option.noConfusion h
    | some q =>
      cases hv : PipelineGenerator.floatValues cs ks with
      | none => intro h; exact Option.noConfusion h
      | some qs2 =>
        intro h
        simp only [Option.some.injEq] at h
        subst h
        simp [List.all_cons, List.forall_mem_cons, hf, ih qs2 hv]

/-- When the comprehension succeeds, some parsed value is nonzero exactly
when some listed value parses to a nonzero number. -/
theorem PipelineGenerator.floatValues_exists_nonzero (cs : List (String × CalVal))
    (keys : List String) (qs : List Rat)
    (h : PipelineGenerator.floatValues cs keys = some qs) :
    (qs.all fun c => decide (c = 0)) = false ↔
      ∃ k ∈ keys, ∃ q, (alGet cs k).bind parseFloat = some q ∧ q ≠ 0 := by
  induction keys generalizing qs with
  | nil =>
    simp only [PipelineGenerator.floatValues, Option.some.injEq] at h
    subst h
    simp
  | cons k ks ih =>
    revert h
    simp only [PipelineGenerator.floatValues]
    cases hf : (alGet cs k).bind parseFloat with
    | none => intro h; exact Option.noConfusion h
    | some q =>
      cases hv : PipelineGenerator.floatValues cs ks with
      | none => intro h; exact Option.noConfusion h
      | some qs2 =>
        intro h
        simp only [Option.some.injEq] at h
        subst h
        constructor
        · intro hall
          rw [List.all_cons, Bool.and_eq_false_iff] at hall
          rcases hall with hq | hrest
          · exact ⟨k, List.mem_cons_self k ks, q, hf, of_decide_eq_false hq⟩
          · rcases (ih qs2 hv).mp hrest with ⟨k2, hk2, q2, hf2, hq2⟩
            exact ⟨k2, List.mem_cons_of_mem k hk2, q2, hf2, hq2⟩
        · rintro ⟨k2, hk2, q2, hf2, hq2⟩
          rcases List.mem_cons.mp hk2 with he | hm
          · subst he
            rw [hf] at hf2
            have hqq : q = q2 := Option.some.inj hf2
            subst hqq
            simp [List.all_cons, hq2]
          · have hrest := (ih qs2 hv).mpr ⟨k2, hm, q2, hf2, hq2⟩
            simp [List.all_cons, hrest]

/-- Calibration entries with all nine keys present, numeric distortion
coefficients not all zero, and a non-numeric intrinsics value. -/
def c3_calib : List (String × CalVal) :=
  [("intrinsics_fx", .nonnum), ("intrinsics_fy", .num 1), ("intrinsics_cx", .num 1),
   ("intrinsics_cy", .num 1), ("distortion_k1", .num 1), ("distortion_k2", .num 0),
   ("distortion_p1", .num 0), ("distortion_p2", .num 0), ("distortion_k3", .num 0)]

/-- C3 counterexample: the undistortion builder emits its stage even
though the intrinsics_fx value does not parse as a number, because the
code only float-parses the five distortion values; the claim requires all
nine values to parse. -/
theorem c3_counterexample :
    PipelineGenerator.add_camera_undistort c3_calib =
      ["cameraundistort settings=cameraundistort0"] ∧
    (alGet c3_calib "intrinsics_fx").bind parseFloat = none := by
  exact ⟨rfl, rfl⟩

/-- C3 (amended): the undistortion builder emits the single-element stage
list exactly when all four intrinsics keys and all five distortion keys
are present, the five distortion values parse as numbers, and some parsed
distortion coefficient is nonzero; intrinsics values are never parsed,
and in every other case the builder returns the empty list without an
error. -/
theorem c3_undistort_condition (cs : List (String × CalVal)) :
    (PipelineGenerator.add_camera_undistort cs = [] ∨
     PipelineGenerator.add_camera_undistort cs = ["cameraundistort settings=cameraundistort0"]) ∧
    (PipelineGenerator.add_camera_undistort cs = ["cameraundistort settings=cameraundistort0"] ↔
      ((∀ k ∈ PipelineGenerator.intrinsics_keys, (alGet cs k).isSome = true) ∧
       (∀ k ∈ PipelineGenerator.dist_coeffs_keys, (alGet cs k).isSome = true) ∧
       (∀ k ∈ PipelineGenerator.dist_coeffs_keys, (alGet cs k).bind parseFloat ≠ none) ∧
       (∃ k ∈ PipelineGenerator.dist_coeffs_keys,
         ∃ q, (alGet cs k).bind parseFloat = some q ∧ q ≠ 0))) := by
  unfold PipelineGenerator.add_camera_undistort
  by_cases hI : (PipelineGenerator.intrinsics_keys.all fun k => (alGet cs k).isSome) = true
  · by_cases hD : (PipelineGenerator.dist_coeffs_keys.all fun k => (alGet cs k).isSome) = true
    · have hI' := List.all_eq_true.mp hI
      have hD' := List.all_eq_true.mp hD
      simp only [if_pos hI, if_pos hD]
      cases hfv : PipelineGenerator.floatValues cs PipelineGenerator.dist_coeffs_keys with
      | none =>
        have hex := (PipelineGenerator.floatValues_none_iff cs _).mp hfv
        refine ⟨by simp, ?_, ?_⟩
        · intro habs
          exact absurd habs (by simp)
        · rintro ⟨-, -, h3, -⟩
          rcases hex with ⟨k, hk, hfk⟩
          exact absurd hfk (h3 k hk)
      | some qs =>
        by_cases hz : (qs.all fun c => decide (c = 0)) = true
        · simp only [if_pos hz]
          have hall := (PipelineGenerator.floatValues_all_zero_iff cs _ qs hfv).mp hz
          refine ⟨by simp, ?_, ?_⟩
          · intro habs
            exact absurd habs (by simp)
          · rintro ⟨-, -, -, k, hk, q, hq, hq0⟩
            rw [hall k hk] at hq
            exact absurd (Option.some.inj hq).symm hq0
        · have hzf : (qs.all fun c => decide (c = 0)) = false := Bool.eq_false_iff.mpr hz
          simp only [if_neg hz]
          refine ⟨by simp, ?_⟩
          refine iff_of_true (by simp) ⟨hI', hD', ?_, ?_⟩
          · intro k hk hnone
            have hcon := (PipelineGenerator.floatValues_none_iff cs _).mpr ⟨k, hk, hnone⟩
            rw [hfv] at hcon
            exact Option.noConfusion hcon
          · exact (PipelineGenerator.floatValues_exists_nonzero cs _ qs hfv).mp hzf
    · have hD' : ¬ ∀ k ∈ PipelineGenerator.dist_coeffs_keys, (alGet cs k).isSome = true :=
        fun hall => hD (List.all_eq_true.mpr hall)
      simp only [if_pos hI, if_neg hD]
      simp [hD']
  · have hI' : ¬ ∀ k ∈ PipelineGenerator.intrinsics_keys, (alGet cs k).isSome = true :=
      fun hall => hI (List.all_eq_true.mpr hall)
    simp only [if_neg hI]
    simp [hI']

/-- C3 witness: the amended condition evaluated at the counterexample
calibration entries, where the stage is emitted. -/
theorem c3_undistort_condition_witness :
    PplGen.PipelineGenerator.add_camera_undistort c3_calib =
      ["cameraundistort settings=cameraundistort0"] ↔
      ((∀ k ∈ PipelineGenerator.intrinsics_keys, (alGet c3_calib k).isSome = true) ∧
       (∀ k ∈ PipelineGenerator.dist_coeffs_keys, (alGet c3_calib k).isSome = true) ∧
       (∀ k ∈ PipelineGenerator.dist_coeffs_keys, (alGet c3_calib k).bind parseFloat ≠ none) ∧
       (∃ k ∈ PipelineGenerator.dist_coeffs_keys,
         ∃ q, (alGet c3_calib k).bind parseFloat = some q ∧ q ≠ 0)) :=
  (c3_undistort_condition c3_calib).2

/-- Bind on a successful step runs the continuation. -/
theorem except_bind_ok {ε α β : Type} (a : α) (f : α → Except ε β) :
    (Except.ok a >>= f : Except ε β) = f a := rfl

/-- Bind on a failed step propagates the error. -/
theorem except_bind_err {ε α β : Type} (e : ε) (f : α → Except ε β) :
    ((Except.error e : Except ε α) >>= f : Except ε β) = Except.error e := rfl

/-- C1: whenever generation succeeds, the descriptor is exactly the
source stages, decode stages, memory-capability marker, undistortion
stages (when emitted), timestamp stage, the single inference stage with
the chosen preprocessing backend applied before serialization, queue,
metadata conversion, the post-inference conversion stages exactly when
the device decision requires them, adapter stages and sink, in that
order, joined by the fixed chain-link separator. -/
theorem c1_generate_order (cs : CameraSettings) (cfg : List (String × ModelConfigEntry))
    (g : PipelineGenerator)
    (h : PipelineGenerator.make cs cfg = Except.ok g) :
    ∃ im src dd,
      InferenceModel.make PipelineGenerator.models_folder cs.camerachain cfg = Except.ok im ∧
      PipelineGenerator.parse_source cs.command PipelineGenerator.video_path = Except.ok src ∧
      PipelineGenerator.apply_device_rule_set (cs.cv_subsystem.getD "AUTO")
        (InferenceModel.get_target_device im) = Except.ok dd ∧
      PipelineGenerator.generate g = String.intercalate " ! "
        (src ++ dd.decode ++ dd.memory_caps ++
         (if cs.undistort then PipelineGenerator.add_camera_undistort cs.calib else []) ++
         [PipelineGenerator.timestamp_stage] ++
         InferenceModel.serialize
           (if dd.preprocessing_backend ≠ "" then
              InferenceModel.set_preprocessing_backend im dd.preprocessing_backend
            else im) ++
         ["queue"] ++ PipelineGenerator.metadata_conversion_stages ++
         (if dd.post_gpu_inference_conversion then ["vapostproc", "video/x-raw,format=BGRA"]
          else []) ++
         PipelineGenerator.adapter_stages ++ PipelineGenerator.sink_stages) := by
  unfold PipelineGenerator.make at h
  cases him : InferenceModel.make PipelineGenerator.models_folder cs.camerachain cfg with
  | error e =>
    rw [him, except_bind_err] at h
    exact Except.noConfusion h
  | ok im =>
    simp only [him, except_bind_ok] at h
    cases hsrc : PipelineGenerator.parse_source cs.command PipelineGenerator.video_path with
    | error e =>
      rw [hsrc, except_bind_err] at h
      exact Except.noConfusion h
    | ok src =>
      simp only [hsrc, except_bind_ok] at h
      cases hdd : PipelineGenerator.apply_device_rule_set (cs.cv_subsystem.getD "AUTO")
          (InferenceModel.get_target_device im) with
      | error e =>
        rw [hdd, except_bind_err] at h
        exact Except.noConfusion h
      | ok dd =>
        simp only [hdd, except_bind_ok, Except.ok.injEq] at h
        refine ⟨im, src, dd, rfl, rfl, hdd, ?_⟩
        rw [← h]
        rfl

/-- Camera settings for the C1 witness: a file source, no decode hint,
undistortion off. -/
def c1_camera : CameraSettings := ⟨"det", "file://cam1.mp4", none, false, []⟩

/-- Model config for the C1 witness: a single detect model with no
explicit parameters. -/
def c1_config : List (String × ModelConfigEntry) := [("det", ⟨some "detect", "", []⟩)]

/-- The generator state `make` produces on the C1 witness inputs. -/
def c1_generator : PipelineGenerator :=
  ⟨⟨"det", none, ⟨"", some "detect", InferenceModel.DEFAULT_PARAMS⟩, "gvadetect"⟩,
   ["multifilesrc loop=TRUE location=/home/pipeline-server/videos/cam1.mp4 name=source"],
   ["decodebin3"], false, ["video/x-raw"], "", false,
   [PipelineGenerator.timestamp_stage], [],
   PipelineGenerator.adapter_stages, PipelineGenerator.metadata_conversion_stages,
   PipelineGenerator.sink_stages⟩

set_option maxRecDepth 4000 in
/-- C1 witness: the stage-order statement evaluated on a concrete camera
and model config on which generation succeeds. -/
theorem c1_generate_order_witness :
    PipelineGenerator.make c1_camera c1_config = Except.ok c1_generator ∧
    (∃ im src dd,
      InferenceModel.make PipelineGenerator.models_folder c1_camera.camerachain c1_config =
        Except.ok im ∧
      PipelineGenerator.parse_source c1_camera.command PipelineGenerator.video_path =
        Except.ok src ∧
      PipelineGenerator.apply_device_rule_set (c1_camera.cv_subsystem.getD "AUTO")
        (InferenceModel.get_target_device im) = Except.ok dd ∧
      PipelineGenerator.generate c1_generator = String.intercalate " ! "
        (src ++ dd.decode ++ dd.memory_caps ++
         (if c1_camera.undistort then PipelineGenerator.add_camera_undistort c1_camera.calib
          else []) ++
         [PipelineGenerator.timestamp_stage] ++
         InferenceModel.serialize
           (if dd.preprocessing_backend ≠ "" then
              InferenceModel.set_preprocessing_backend im dd.preprocessing_backend
            else im) ++
         ["queue"] ++ PipelineGenerator.metadata_conversion_stages ++
         (if dd.post_gpu_inference_conversion then ["vapostproc", "video/x-raw,format=BGRA"]
          else []) ++
         PipelineGenerator.adapter_stages ++ PipelineGenerator.sink_stages)) := by
  have hmk : PipelineGenerator.make c1_camera c1_config = Except.ok c1_generator := by decide
  exact ⟨hmk, c1_generate_order c1_camera c1_config c1_generator hmk⟩

/-- A string extending a prefix that the target does not start with can
never equal the target. -/
theorem string_append_left_ne (p x q : String) (h : p.data.isPrefixOf q.data = false) :
    p ++ x ≠ q := by
  intro he
  have hd : p.data ++ x.data = q.data := by rw [← String.data_append, he]
  have hpre : p.data.isPrefixOf q.data = true := by
    rw [← hd]
    exact List.isPrefixOf_iff_prefix.mpr (List.prefix_append _ _)
  rw [h] at hpre
  exact Bool.noConfusion hpre

/-- No source stage is the undistortion stage. -/
theorem parse_source_no_undistort (src root : String) (l : List String)
    (h : PipelineGenerator.parse_source src root = Except.ok l) :
    "cameraundistort settings=cameraundistort0" ∉ l := by
  unfold PipelineGenerator.parse_source at h
  split at h
  · rw [← Except.ok.inj h]
    intro hm
    simp only [List.mem_cons, List.not_mem_nil, or_false] at hm
    rcases hm with hm | hm | hm
    · rw [String.append_assoc] at hm
      exact string_append_left_ne _ _ _ (by decide) hm.symm
    · exact absurd hm (by decide)
    · exact absurd hm (by decide)
  · split at h
    · rw [← Except.ok.inj h]
      intro hm
      simp only [List.mem_cons, List.not_mem_nil, or_false] at hm
      rw [String.append_assoc] at hm
      exact string_append_left_ne _ _ _ (by decide) hm.symm
    · split at h
      · rw [← Except.ok.inj h]
        intro hm
        simp only [List.mem_cons, List.not_mem_nil, or_false] at hm
        rcases hm with hm | hm
        · rw [String.append_assoc] at hm
          exact string_append_left_ne _ _ _ (by decide) hm.symm
        · exact absurd hm (by decide)
      · exact Except.noConfusion h

/-- No decode stage and no memory-capability marker is the undistortion
stage. -/
theorem device_decision_no_undistort (dd inf : String) (d : DeviceDecision)
    (h : PipelineGenerator.apply_device_rule_set dd inf = Except.ok d) :
    "cameraundistort settings=cameraundistort0" ∉ d.decode ∧
    "cameraundistort settings=cameraundistort0" ∉ d.memory_caps := by
  unfold PipelineGenerator.apply_device_rule_set at h
  split at h
  · next hguard =>
    simp only [Except.ok.injEq] at h
    subst h
    by_cases hinf : inf = "GPU" <;>
      rcases hguard with hdd | hdd | hdd <;> subst hdd <;>
        simp [hinf]
  · exact Except.noConfusion h

/-- The inference element name resolver only ever returns the detection
or the classification element. -/
theorem element_name_cases (t : Option String) (e : String)
    (h : InferenceModel.get_inference_element_name t = Except.ok e) :
    e = "gvadetect" ∨ e = "gvaclassify" := by
  unfold InferenceModel.get_inference_element_name at h
  split at h
  · exact Or.inl (Except.ok.inj h).symm
  · split at h
    · exact Or.inr (Except.ok.inj h).symm
    · exact Except.noConfusion h

/-- A successfully constructed inference model carries the detection or
the classification element. -/
theorem make_inference_element (mf me : String) (cfg : List (String × ModelConfigEntry))
    (im : InferenceModel)
    (h : InferenceModel.make mf me cfg = Except.ok im) :
    im.inference_element = "gvadetect" ∨ im.inference_element = "gvaclassify" := by
  unfold InferenceModel.make at h
  cases hp : InferenceModel.parse_model_expr me with
  | error e =>
    rw [hp, except_bind_err] at h
    exact Except.noConfusion h
  | ok nd =>
    simp only [hp, except_bind_ok] at h
    cases hl : InferenceModel.load_params mf cfg nd.1 with
    | error e =>
      rw [hl, except_bind_err] at h
      exact Except.noConfusion h
    | ok p =>
      simp only [hl, except_bind_ok] at h
      obtain ⟨nm, dev⟩ := nd
      cases dev with
      | none =>
        cases he : InferenceModel.get_inference_element_name p.model_type with
        | error e =>
          rw [he, except_bind_err] at h
          exact Except.noConfusion h
        | ok elem =>
          simp only [he, except_bind_ok, Except.ok.injEq] at h
          rw [← h]
          exact element_name_cases _ _ he
      | some dv =>
        by_cases hdv : dv ≠ ""
        · simp only [if_pos hdv] at h
          cases he : InferenceModel.get_inference_element_name p.model_type with
          | error e =>
            rw [he, except_bind_err] at h
            exact Except.noConfusion h
          | ok elem =>
            simp only [he, except_bind_ok, Except.ok.injEq] at h
            rw [← h]
            exact element_name_cases _ _ he
        · simp only [if_neg hdv] at h
          cases he : InferenceModel.get_inference_element_name p.model_type with
          | error e =>
            rw [he, except_bind_err] at h
            exact Except.noConfusion h
          | ok elem =>
            simp only [he, except_bind_ok, Except.ok.injEq] at h
            rw [← h]
            exact element_name_cases _ _ he

/-- Applying a preprocessing backend never changes the inference element
name. -/
theorem set_backend_element (m : InferenceModel) (b : String) :
    (InferenceModel.set_preprocessing_backend m b).inference_element = m.inference_element := by
  unfold InferenceModel.set_preprocessing_backend
  split <;> rfl

/-- The serialized inference stage of a detect or classify model is never
the undistortion stage. -/
theorem serialize_no_undistort (m : InferenceModel)
    (he : m.inference_element = "gvadetect" ∨ m.inference_element = "gvaclassify") :
    "cameraundistort settings=cameraundistort0" ∉ InferenceModel.serialize m := by
  intro hmem
  simp only [InferenceModel.serialize, List.mem_singleton] at hmem
  rw [String.append_assoc] at hmem
  rcases he with hE | hE <;> rw [hE] at hmem <;>
    exact string_append_left_ne _ _ _ (by decide) hmem.symm

/-- C10: when the undistort entry of the camera settings is falsy, the
generated pipeline contains no undistortion stage even if complete and
valid calibration entries are present, and the calibration entries are
never consulted: generation yields the same state for every calibration
mapping. -/
theorem c10_undistort_gating (cs : CameraSettings) (cfg : List (String × ModelConfigEntry))
    (g : PipelineGenerator)
    (h : PipelineGenerator.make cs cfg = Except.ok g)
    (hu : cs.undistort = false) :
    g.undistort = [] ∧
    "cameraundistort settings=cameraundistort0" ∉ PipelineGenerator.components g ∧
    (∀ calib2 : List (String × CalVal),
      PipelineGenerator.make { cs with calib := calib2 } cfg = Except.ok g) := by
  unfold PipelineGenerator.make at h
  cases him : InferenceModel.make PipelineGenerator.models_folder cs.camerachain cfg with
  | error e =>
    rw [him, except_bind_err] at h
    exact Except.noConfusion h
  | ok im =>
    simp only [him, except_bind_ok] at h
    cases hsrc : PipelineGenerator.parse_source cs.command PipelineGenerator.video_path with
    | error e =>
      rw [hsrc, except_bind_err] at h
      exact Except.noConfusion h
    | ok src =>
      simp only [hsrc, except_bind_ok] at h
      cases hdd : PipelineGenerator.apply_device_rule_set (cs.cv_subsystem.getD "AUTO")
          (InferenceModel.get_target_device im) with
      | error e =>
        rw [hdd, except_bind_err] at h
        exact Except.noConfusion h
      | ok dd =>
        simp only [hdd, except_bind_ok, Except.ok.injEq] at h
        subst h
        refine ⟨by simp [hu], ?_, ?_⟩
        · intro hm
          unfold PipelineGenerator.components at hm
          dsimp only at hm
          rw [hu] at hm
          have he : (if dd.preprocessing_backend ≠ "" then
              InferenceModel.set_preprocessing_backend im dd.preprocessing_backend
            else im).inference_element = "gvadetect" ∨
              (if dd.preprocessing_backend ≠ "" then
                InferenceModel.set_preprocessing_backend im dd.preprocessing_backend
              else im).inference_element = "gvaclassify" := by
            have hbase := make_inference_element _ _ _ _ him
            split
            · rw [set_backend_element]
              exact hbase
            · exact hbase
          have hser := serialize_no_undistort _ he
          simp only [ne_eq, ite_not] at hser
          have hsrcn := parse_source_no_undistort _ _ _ hsrc
          have hdec := (device_decision_no_undistort _ _ _ hdd).1
          have hcaps := (device_decision_no_undistort _ _ _ hdd).2
          cases hb : dd.post_gpu_inference_conversion <;> rw [hb] at hm <;>
            simp [hsrcn, hdec, hcaps, hser, PipelineGenerator.metadata_conversion_stages,
              PipelineGenerator.adapter_stages, PipelineGenerator.sink_stages,
              PipelineGenerator.timestamp_stage, PipelineGenerator.gva_python_path] at hm
        · intro calib2
          unfold PipelineGenerator.make
          dsimp only
          simp only [him, except_bind_ok, hsrc, hdd]
          simp [hu]

/-- Camera settings for the C10 witness: undistort falsy while all nine
calibration entries are present, numeric and not all zero. -/
def c10_camera : CameraSettings :=
  ⟨"det", "file://cam1.mp4", none, false,
   [("intrinsics_fx", .num 1), ("intrinsics_fy", .num 1), ("intrinsics_cx", .num 1),
    ("intrinsics_cy", .num 1), ("distortion_k1", .num 1), ("distortion_k2", .num 0),
    ("distortion_p1", .num 0), ("distortion_p2", .num 0), ("distortion_k3", .num 0)]⟩

set_option maxRecDepth 4000 in
/-- C10 witness: the gating statement evaluated on calibrated camera
settings with undistort off, plus the calib-independence instance at the
empty calibration mapping. -/
theorem c10_undistort_gating_witness :
    PipelineGenerator.make c10_camera c1_config = Except.ok c1_generator ∧
    c10_camera.undistort = false ∧
    c1_generator.undistort = [] ∧
    "cameraundistort settings=cameraundistort0" ∉ PipelineGenerator.components c1_generator ∧
    PipelineGenerator.make { c10_camera with calib := [] } c1_config =
      Except.ok c1_generator := by
  have hmk : PipelineGenerator.make c10_camera c1_config = Except.ok c1_generator := by decide
  have h := c10_undistort_gating c10_camera c1_config c1_generator hmk rfl
  exact ⟨hmk, rfl, h.1, h.2.1, h.2.2 []⟩

/-- C9 witness: serialization evaluated on a model whose parameters hold
the string a b and the number 1. -/
theorem c9_serialize_formatting_witness :
    InferenceModel.serialize
      ⟨"det", none, ⟨"", some "detect",
        [("k", PValue.str "a b"), ("n", PValue.int 1)]⟩, "gvadetect"⟩ =
      ["gvadetect k=\"a b\" n=1"] := by
  have h := (c9_serialize_formatting
    ⟨"det", none, ⟨"", some "detect",
      [("k", PValue.str "a b"), ("n", PValue.int 1)]⟩, "gvadetect"⟩).1
  exact h.trans (by decide)

end PplGen
